import Mathlib

set_option maxHeartbeats 1000000

/-!
Verification of the zclaw firmware core against its specification.

The definitions below are a shallow embedding of the C sources:

* `src/main/telegram.c` — the chat-API poller (`telegram_poll`,
  `telegram_flush_pending`, `get_backoff_delay_ms`, `telegram_poll_task`,
  `i64_to_str`);
* `src/unnamed/part_001` (tools_gpio/i2c handlers) — `tools_i2c_scan_handler`,
  `gpio_pin_is_allowed`;
* `src/main/tools_system.c` — `tools_create_tool_handler`.

Machine integers are modelled as `Int`/`Nat`.  cJSON stores every JSON number
as a C `double`; the resulting value of an integer-valued JSON number is
modelled by explicit binary64 rounding (`round_to_f64_mag`).  HTTP traffic,
FreeRTOS queues and the NVS store are modelled by explicit inputs and by
traces recorded in the result structures.
-/

/-- Bit length of a natural number (position of the highest set bit, plus
one), written with explicit structural fuel so that the kernel can evaluate
it; 64 bits of fuel covers the whole int64 range used by the firmware. -/
def bitlenAux : Nat → Nat → Nat
  | 0, _ => 0
  | fuel + 1, n => if n = 0 then 0 else bitlenAux fuel (n / 2) + 1

/-- Bit length for values in the int64 range. -/
def bitlen (n : Nat) : Nat := bitlenAux 64 n

/-- Magnitude of the binary64 (IEEE-754 double) value nearest to `n`, for
`n` in the int64 range: magnitudes up to `2 ^ 53` are exactly representable;
above that the significand has 53 bits and the remainder is rounded to
nearest, ties to even.  This models what cJSON's `valuedouble` holds after
parsing the decimal text of an integer. -/
def round_to_f64_mag (n : Nat) : Nat :=
  if n ≤ 2 ^ 53 then n
  else
    let p := 2 ^ (bitlen n - 1 - 52)
    let q := n / p
    let r := n % p
    if r < p / 2 then q * p
    else if p / 2 < r then (q + 1) * p
    else if q % 2 = 0 then q * p else (q + 1) * p

/-- Value obtained by reading the integer-valued JSON number `v` through
cJSON (`valuedouble`, a binary64 double) and casting back with `(int64_t)`,
as `telegram.c` does for `update_id` and `chat.id`
(`s_last_update_id = (int64_t)update_id->valuedouble`, lines 326–331 and
340–344). -/
def cjson_number_as_i64 (v : Int) : Int :=
  if v < 0 then -(round_to_f64_mag v.natAbs : Int) else (round_to_f64_mag v.natAbs : Int)

theorem round_to_f64_mag_eq_of_le (n : Nat) (h : n ≤ 2 ^ 53) :
    round_to_f64_mag n = n := by
  unfold round_to_f64_mag
  rw [if_pos h]

theorem cjson_number_as_i64_eq_of_le (v : Int) (h : v.natAbs ≤ 2 ^ 53) :
    cjson_number_as_i64 v = v := by
  unfold cjson_number_as_i64
  rw [round_to_f64_mag_eq_of_le v.natAbs h]
  rcases Int.natAbs_eq v with h' | h' <;> split <;> omega

/-! ## Chat-API poller data model (`src/main/telegram.c`) -/

/-- The "chat" object inside a Telegram message: `id` is the exact integer
written in the JSON text when the field is present and numeric. -/
structure TgChat where
  id : Option Int
deriving DecidableEq

/-- The "message" object inside a Telegram update: `chat` when the "chat"
object is present, `text` when the "text" field is present and is a string. -/
structure TgMessageJson where
  chat : Option TgChat
  text : Option String
deriving DecidableEq

/-- One element of the `getUpdates` "result" array: `update_id` is the exact
integer in the JSON text when present and numeric. -/
structure TgUpdateJson where
  update_id : Option Int
  message : Option TgMessageJson
deriving DecidableEq

/-- Log lines emitted by `telegram_poll` (`ESP_LOGW`, lines 290, 347–348,
354–355, 362–363). -/
inductive TgLog where
  | precisionLoss
  | rejectedUnauthorized (chat_id : Int)
  | noChatConfigured (chat_id : Int)
  | truncatedRecovered (update_id : Int)
deriving DecidableEq

/-- Poller state: `s_last_update_id` and `s_chat_id` in `telegram.c`. -/
structure TgState where
  last_update_id : Int
  chat_id : Int
deriving DecidableEq

/-- The request parameters of one `getUpdates` call, as built into the URL
(`getUpdates?timeout=%d&limit=1&offset=%s`, lines 250–252). -/
structure TgRequest where
  offset : Int
  limit : Nat
deriving DecidableEq

/-- A message placed on the agent input queue, tagged with the (double-path
converted) `update_id` of the update it came from. -/
structure EnqueuedMsg where
  update_id : Option Int
  text : String
deriving DecidableEq

/-- Accumulator of the `cJSON_ArrayForEach` loop of `telegram_poll`
(lines 324–379). -/
structure PollAcc where
  last : Int
  enqueued : List EnqueuedMsg
  logs : List TgLog
deriving DecidableEq

/-- One iteration of the update loop of `telegram_poll` (lines 325–379):
record `update_id` into `s_last_update_id` when present and numeric; then,
when the message carries a chat object and a string text and a numeric chat
id, either log-and-discard (unauthorized chat, or no chat configured) or
enqueue the text onto the input queue.  The `strncpy` truncation of the text
to `CHANNEL_RX_BUF_SIZE` bytes and the possibility of `xQueueSend` timing out
on a full queue are not modelled (`config.h` is not under `src/`); the
enqueue list records what the loop offers to the queue. -/
def telegram_process_update (chat_cfg : Int) (acc : PollAcc) (u : TgUpdateJson) : PollAcc :=
  let last := match u.update_id with
    | some n => cjson_number_as_i64 n
    | none => acc.last
  match u.message with
  | none => { acc with last := last }
  | some m =>
    match m.chat, m.text with
    | some c, some t =>
      match c.id with
      | some cid_raw =>
        let cid := cjson_number_as_i64 cid_raw
        let logs := if 2 ^ 53 < cid then acc.logs ++ [TgLog.precisionLoss] else acc.logs
        if chat_cfg ≠ 0 ∧ cid ≠ chat_cfg then
          { last := last, enqueued := acc.enqueued,
            logs := logs ++ [TgLog.rejectedUnauthorized cid] }
        else if chat_cfg = 0 then
          { last := last, enqueued := acc.enqueued,
            logs := logs ++ [TgLog.noChatConfigured cid] }
        else
          { last := last, enqueued := acc.enqueued ++ [⟨u.update_id.map cjson_number_as_i64, t⟩],
            logs := logs }
      | none => { acc with last := last }
    | _, _ => { acc with last := last }

/-- What `telegram_process_update` does to `s_last_update_id` alone. -/
def telegram_last_of (l : Int) (u : TgUpdateJson) : Int :=
  match u.update_id with
  | some n => cjson_number_as_i64 n
  | none => l

/-- The message (if any) that `telegram_process_update` enqueues for one
update. -/
def telegram_enqueue_of (chat_cfg : Int) (u : TgUpdateJson) : Option EnqueuedMsg :=
  match u.message with
  | none => none
  | some m =>
    match m.chat, m.text with
    | some c, some t =>
      match c.id with
      | some cid_raw =>
        let cid := cjson_number_as_i64 cid_raw
        if chat_cfg ≠ 0 ∧ cid ≠ chat_cfg then none
        else if chat_cfg = 0 then none
        else some ⟨u.update_id.map cjson_number_as_i64, t⟩
      | none => none
    | _, _ => none

/-- The log lines `telegram_process_update` emits for one update. -/
def telegram_logs_of (chat_cfg : Int) (u : TgUpdateJson) : List TgLog :=
  match u.message with
  | none => []
  | some m =>
    match m.chat, m.text with
    | some c, some _ =>
      match c.id with
      | some cid_raw =>
        let cid := cjson_number_as_i64 cid_raw
        (if 2 ^ 53 < cid then [TgLog.precisionLoss] else []) ++
          (if chat_cfg ≠ 0 ∧ cid ≠ chat_cfg then [TgLog.rejectedUnauthorized cid]
           else if chat_cfg = 0 then [TgLog.noChatConfigured cid]
           else [])
      | none => []
    | _, _ => []

theorem telegram_process_update_eq (chat_cfg : Int) (acc : PollAcc) (u : TgUpdateJson) :
    telegram_process_update chat_cfg acc u =
      ⟨telegram_last_of acc.last u,
       acc.enqueued ++ (telegram_enqueue_of chat_cfg u).toList,
       acc.logs ++ telegram_logs_of chat_cfg u⟩ := by
  rcases u with ⟨uid, msg⟩
  rcases msg with _ | ⟨chat, text⟩
  · simp [telegram_process_update, telegram_last_of, telegram_enqueue_of, telegram_logs_of]
  · rcases chat with _ | c <;> rcases text with _ | t
    · simp [telegram_process_update, telegram_last_of, telegram_enqueue_of, telegram_logs_of]
    · simp [telegram_process_update, telegram_last_of, telegram_enqueue_of, telegram_logs_of]
    · simp [telegram_process_update, telegram_last_of, telegram_enqueue_of, telegram_logs_of]
    · rcases c with ⟨_ | cid⟩
      · simp [telegram_process_update, telegram_last_of, telegram_enqueue_of, telegram_logs_of]
      · simp only [telegram_process_update, telegram_last_of, telegram_enqueue_of,
          telegram_logs_of]
        split_ifs <;> simp_all [List.append_assoc]

theorem telegram_poll_foldl_eq (chat_cfg : Int) (us : List TgUpdateJson) (acc : PollAcc) :
    us.foldl (telegram_process_update chat_cfg) acc =
      ⟨us.foldl telegram_last_of acc.last,
       acc.enqueued ++ us.filterMap (telegram_enqueue_of chat_cfg),
       acc.logs ++ us.flatMap (telegram_logs_of chat_cfg)⟩ := by
  induction us generalizing acc with
  | nil => simp
  | cons u us ih =>
    simp only [List.foldl_cons, telegram_process_update_eq, ih, List.filterMap_cons,
      List.flatMap_cons]
    rcases h : telegram_enqueue_of chat_cfg u with _ | e <;>
      simp [h, List.append_assoc]

/-- The body of one `getUpdates` poll, as `telegram_poll` sees it after
`esp_http_client_perform` returns (lines 274–321 of `telegram.c`):
HTTP/transport failure, a truncated body (carrying the `update_id` values
still recoverable from the partial 4 KB buffer), an unparseable body, a body
with `"ok"` missing or false, a body without a `"result"` array, or the
parsed `"result"` array of updates. -/
inductive PollResponse where
  | httpFail
  | truncated (recoverable : List Int)
  | parseFail
  | notOk
  | noResultArray
  | updates (us : List TgUpdateJson)
deriving DecidableEq

/-- Modelled from the spec: `telegram_extract_max_update_id` is declared in
`telegram_update.h` but its implementation is not under `src/`.  Per §4.H of
the spec it must "scan the partial buffer for the highest `update_id`
value"; the partial buffer is represented here by the list of `update_id`
values recoverable from it, and the function returns the highest of them,
or nothing when the list is empty. -/
def telegram_extract_max_update_id : List Int → Option Int
  | [] => none
  | i :: rest => some (rest.foldl max i)

/-- Everything one call of `telegram_poll` produces: the new poller state,
the request it issued, the messages it offered to the agent input queue, the
writes it performed on the persistent store, its log lines, and whether it
returned `ESP_OK`. -/
structure TgPollResult where
  st : TgState
  request : TgRequest
  enqueued : List EnqueuedMsg
  store_writes : List (String × String)
  logs : List TgLog
  ok : Bool
deriving DecidableEq

/-- `telegram_poll` (lines 241–384 of `telegram.c`).  The function requests
`offset = s_last_update_id + 1` with `limit = 1`; on HTTP failure it returns
`ESP_FAIL`; on a truncated body it recovers the highest parseable
`update_id` (success) or fails when none is recoverable; otherwise it parses
the body and runs the update loop.  Note that `telegram.c` contains no
`memory_put` call: no poll path writes to the persistent store, which is why
`store_writes` is the empty trace on every branch. -/
def telegram_poll (st : TgState) (resp : PollResponse) : TgPollResult :=
  let req : TgRequest := { offset := st.last_update_id + 1, limit := 1 }
  match resp with
  | .httpFail => ⟨st, req, [], [], [], false⟩
  | .truncated ids =>
    match telegram_extract_max_update_id ids with
    | some recovered =>
      ⟨{ st with last_update_id := recovered }, req, [], [],
        [TgLog.truncatedRecovered recovered], true⟩
    | none => ⟨st, req, [], [], [], false⟩
  | .parseFail => ⟨st, req, [], [], [], false⟩
  | .notOk => ⟨st, req, [], [], [], false⟩
  | .noResultArray => ⟨st, req, [], [], [], true⟩
  | .updates us =>
    let acc := us.foldl (telegram_process_update st.chat_id) ⟨st.last_update_id, [], []⟩
    ⟨{ st with last_update_id := acc.last }, req, acc.enqueued, [], acc.logs, true⟩

/-- A sequence of steady-state polls: threads the poller state through the
responses and collects every message offered to the agent input queue. -/
def telegram_poll_seq (st : TgState) : List PollResponse → TgState × List EnqueuedMsg
  | [] => (st, [])
  | r :: rs =>
    let res := telegram_poll st r
    let rest := telegram_poll_seq res.st rs
    (rest.1, res.enqueued ++ rest.2)

/-- The chat API's `getUpdates` contract for a request with the given
offset: every returned update carries a numeric `update_id` that is at least
the offset (and Telegram ids stay well below `2 ^ 53`, so the double path is
exact for them); a truncated body likewise only holds ids at least the
offset. -/
def respectsOffset (offset : Int) : PollResponse → Bool
  | .updates us =>
    us.all fun u =>
      match u.update_id with
      | some n => decide (offset ≤ n) && decide (n.natAbs ≤ 2 ^ 53)
      | none => false
  | .truncated ids => ids.all fun i => decide (offset ≤ i)
  | _ => true

/-- A response sequence in which the chat API honours each request's offset
in turn. -/
def seqRespectsOffsets : TgState → List PollResponse → Bool
  | _, [] => true
  | st, r :: rs =>
    respectsOffset (st.last_update_id + 1) r &&
      seqRespectsOffsets (telegram_poll st r).st rs

/-- Startup flush, `telegram_flush_pending` (lines 441–498 of `telegram.c`).
Step 1 requests `getUpdates?offset=-1&limit=1&timeout=0`; `step1_status` is
its HTTP status and `step1_uid` the `update_id` of the first element of its
`result` array when the whole parse chain succeeds.  On any failure, or when
the parsed id is 0, the state is left unchanged; otherwise step 2 issues the
acknowledge request `offset = last_id + 1` (its status is ignored) and
`s_last_update_id` is set to `last_id`.  The flush performs no queue
operation and no store write (`calloc` failure paths are not modelled). -/
def telegram_flush_pending (st : TgState) (step1_status : Int) (step1_uid : Option Int) :
    TgState × Option TgRequest :=
  if step1_status ≠ 200 then (st, none)
  else
    let last_id : Int := match step1_uid with
      | some n => cjson_number_as_i64 n
      | none => 0
    if last_id = 0 then (st, none)
    else ({ st with last_update_id := last_id }, some { offset := last_id + 1, limit := 1 })

/-! ## Helper lemmas about the poller -/

theorem tg_le_foldl_max (l : List Int) (a : Int) : a ≤ l.foldl max a := by
  induction l generalizing a with
  | nil => exact le_refl a
  | cons x l ih => exact le_trans (le_max_left a x) (ih (max a x))

theorem tg_mem_le_foldl_max (l : List Int) (a : Int) :
    ∀ x ∈ l, x ≤ l.foldl max a := by
  induction l generalizing a with
  | nil => intro x hx; cases hx
  | cons y l ih =>
    intro x hx
    rcases List.mem_cons.mp hx with rfl | hx
    · exact le_trans (le_max_right a x) (tg_le_foldl_max l (max a x))
    · exact ih (max a y) x hx

theorem tg_foldl_max_mem (l : List Int) (a : Int) :
    l.foldl max a = a ∨ l.foldl max a ∈ l := by
  induction l generalizing a with
  | nil => exact Or.inl rfl
  | cons x l ih =>
    rw [List.foldl_cons]
    rcases ih (max a x) with h | h
    · rcases max_choice a x with hm | hm
      · exact Or.inl (by rw [h, hm])
      · exact Or.inr (by rw [h, hm]; exact List.mem_cons_self x l)
    · exact Or.inr (List.mem_cons_of_mem x h)

theorem telegram_extract_max_spec (ids : List Int) (h : ids ≠ []) :
    ∃ m, telegram_extract_max_update_id ids = some m ∧ m ∈ ids ∧ ∀ i ∈ ids, i ≤ m := by
  rcases ids with _ | ⟨i, rest⟩
  · exact absurd rfl h
  · refine ⟨rest.foldl max i, rfl, ?_, ?_⟩
    · rcases tg_foldl_max_mem rest i with h' | h'
      · rw [h']; exact List.mem_cons_self i rest
      · exact List.mem_cons_of_mem i h'
    · intro x hx
      rcases List.mem_cons.mp hx with rfl | hx
      · exact tg_le_foldl_max rest x
      · exact tg_mem_le_foldl_max rest i x hx

theorem telegram_foldl_last_ge (us : List TgUpdateJson) (a : Int) :
    ∀ l, (∀ u ∈ us, ∀ n, u.update_id = some n → a ≤ cjson_number_as_i64 n) →
      a ≤ l → a ≤ us.foldl telegram_last_of l := by
  induction us with
  | nil => intro l _ hl; exact hl
  | cons u us ih =>
    intro l h hl
    rw [List.foldl_cons]
    refine ih _ (fun v hv => h v (List.mem_cons_of_mem u hv)) ?_
    unfold telegram_last_of
    rcases hu : u.update_id with _ | n
    · exact hl
    · exact h u (List.mem_cons_self u us) n hu

/-- Reading the `getUpdates` contract out of `respectsOffset`. -/
theorem respectsOffset_updates (offset : Int) (us : List TgUpdateJson)
    (h : respectsOffset offset (.updates us) = true) :
    ∀ u ∈ us, ∃ n, u.update_id = some n ∧ offset ≤ n ∧ n.natAbs ≤ 2 ^ 53 := by
  intro u hu
  have h' := (List.all_eq_true.mp h) u hu
  rcases hn : u.update_id with _ | n
  · rw [hn] at h'; cases h'
  · rw [hn] at h'
    simp only [Bool.and_eq_true, decide_eq_true_eq] at h'
    exact ⟨n, rfl, h'.1, h'.2⟩

/-- One poll never decreases `s_last_update_id` when the chat API honours
the requested offset. -/
theorem telegram_poll_last_mono (st : TgState) (r : PollResponse)
    (h : respectsOffset (st.last_update_id + 1) r = true) :
    st.last_update_id ≤ (telegram_poll st r).st.last_update_id := by
  rcases r with _ | ids | _ | _ | _ | us
  · exact le_refl _
  · rcases ids with _ | ⟨i, rest⟩
    · simp [telegram_poll, telegram_extract_max_update_id]
    · obtain ⟨m, hm, hmem, -⟩ := telegram_extract_max_spec (i :: rest) (by simp)
      have h2 : (i :: rest).all (fun j => decide (st.last_update_id + 1 ≤ j)) = true := h
      have h3 := (List.all_eq_true.mp h2) m hmem
      simp only [decide_eq_true_eq] at h3
      have h4 : (telegram_poll st (.truncated (i :: rest))).st.last_update_id = m := by
        simp [telegram_poll, hm]
      omega
  · exact le_refl _
  · exact le_refl _
  · exact le_refl _
  · have hc := respectsOffset_updates _ us h
    simp only [telegram_poll, telegram_poll_foldl_eq]
    refine telegram_foldl_last_ge us st.last_update_id st.last_update_id ?_ (le_refl _)
    intro u hu n hn
    obtain ⟨n', hn', hge, hsm⟩ := hc u hu
    rw [hn] at hn'
    obtain rfl : n = n' := by injection hn'
    rw [cjson_number_as_i64_eq_of_le n hsm]
    omega

/-- Inversion of `telegram_enqueue_of`: what must be true of an update for
its text to be enqueued. -/
theorem telegram_enqueue_of_inv (chat_cfg : Int) (u : TgUpdateJson) (e : EnqueuedMsg)
    (h : telegram_enqueue_of chat_cfg u = some e) :
    chat_cfg ≠ 0 ∧
      ∃ m c t cid, u.message = some m ∧ m.chat = some c ∧ m.text = some t ∧
        c.id = some cid ∧ cjson_number_as_i64 cid = chat_cfg ∧
        e = ⟨u.update_id.map cjson_number_as_i64, t⟩ := by
  rcases u with ⟨uid, msg⟩
  rcases msg with _ | ⟨chat, text⟩
  · simp [telegram_enqueue_of] at h
  · rcases chat with _ | c <;> rcases text with _ | t <;>
      simp only [telegram_enqueue_of] at h
    · cases h
    · cases h
    · cases h
    · rcases c with ⟨_ | cid⟩
      · cases h
      · simp only at h
        split_ifs at h with h1 h2
        have hcid : cjson_number_as_i64 cid = chat_cfg := by
          rcases not_and_or.mp h1 with hc | hc
          · exact absurd (by simpa using hc) h2
          · simpa using hc
        cases h
        exact ⟨h2, ⟨some ⟨some cid⟩, some t⟩, ⟨some cid⟩, t, cid,
          rfl, rfl, rfl, rfl, hcid, rfl⟩

theorem telegram_poll_request_eq (st : TgState) (r : PollResponse) :
    (telegram_poll st r).request = ⟨st.last_update_id + 1, 1⟩ := by
  cases r with
  | truncated ids =>
    rcases h : telegram_extract_max_update_id ids with _ | m <;> simp [telegram_poll, h]
  | _ => simp [telegram_poll]

theorem telegram_poll_store_writes_eq (st : TgState) (r : PollResponse) :
    (telegram_poll st r).store_writes = [] := by
  cases r with
  | truncated ids =>
    rcases h : telegram_extract_max_update_id ids with _ | m <;> simp [telegram_poll, h]
  | _ => simp [telegram_poll]

theorem telegram_poll_enqueued_eq (st : TgState) (r : PollResponse) :
    (telegram_poll st r).enqueued =
      match r with
      | .updates us => us.filterMap (telegram_enqueue_of st.chat_id)
      | _ => [] := by
  cases r with
  | truncated ids =>
    rcases h : telegram_extract_max_update_id ids with _ | m <;> simp [telegram_poll, h]
  | updates us => simp [telegram_poll, telegram_poll_foldl_eq]
  | _ => simp [telegram_poll]

theorem telegram_poll_seq_last_mono (rs : List PollResponse) :
    ∀ st : TgState, seqRespectsOffsets st rs = true →
      st.last_update_id ≤ (telegram_poll_seq st rs).1.last_update_id := by
  induction rs with
  | nil => intro st _; exact le_refl _
  | cons r rs ih =>
    intro st h
    rw [seqRespectsOffsets, Bool.and_eq_true] at h
    exact le_trans (telegram_poll_last_mono st r h.1) (ih _ h.2)

theorem telegram_poll_seq_enqueued_gt (rs : List PollResponse) :
    ∀ st : TgState, seqRespectsOffsets st rs = true →
      ∀ e ∈ (telegram_poll_seq st rs).2,
        ∃ m, e.update_id = some m ∧ st.last_update_id < m := by
  induction rs with
  | nil => intro st _ e he; cases he
  | cons r rs ih =>
    intro st h e he
    rw [seqRespectsOffsets, Bool.and_eq_true] at h
    rw [telegram_poll_seq] at he
    rcases List.mem_append.mp he with he | he
    · rw [telegram_poll_enqueued_eq] at he
      rcases r with _ | ids | _ | _ | _ | us
      · cases he
      · cases he
      · cases he
      · cases he
      · cases he
      · obtain ⟨u, hu, hsome⟩ := List.mem_filterMap.mp he
        obtain ⟨-, m', c, t, cid, -, -, -, -, -, he'⟩ :=
          telegram_enqueue_of_inv st.chat_id u e hsome
        obtain ⟨n, hn, hge, hsm⟩ := respectsOffset_updates _ us h.1 u hu
        refine ⟨n, ?_, by omega⟩
        rw [he', hn]
        simp [cjson_number_as_i64_eq_of_le n hsm]
    · obtain ⟨m, hm, hlt⟩ := ih _ h.2 e he
      have := telegram_poll_last_mono st r h.1
      exact ⟨m, hm, by omega⟩

/-- C2: for every update returned by a poll, a message is enqueued onto the
agent input queue only if the update contains a text message and the
authorised chat id is configured (non-zero) and equals the update's
`message.chat.id`; updates from any other chat id are logged and discarded,
and when no chat id is configured every update is discarded without
enqueueing anything. -/
theorem poll_enqueue_requires_authorized_chat (st : TgState) (us : List TgUpdateJson) :
    (∀ e ∈ (telegram_poll st (.updates us)).enqueued,
      st.chat_id ≠ 0 ∧
        ∃ u ∈ us, ∃ m c t cid, u.message = some m ∧ m.chat = some c ∧ m.text = some t ∧
          c.id = some cid ∧ cjson_number_as_i64 cid = st.chat_id ∧ e.text = t) ∧
    (st.chat_id = 0 → (telegram_poll st (.updates us)).enqueued = []) ∧
    (∀ u ∈ us, ∀ m c t cid, u.message = some m → m.chat = some c → m.text = some t →
      c.id = some cid → st.chat_id ≠ 0 → cjson_number_as_i64 cid ≠ st.chat_id →
      TgLog.rejectedUnauthorized (cjson_number_as_i64 cid) ∈
          (telegram_poll st (.updates us)).logs ∧
        telegram_enqueue_of st.chat_id u = none) := by
  have hchar : (telegram_poll st (.updates us)).enqueued =
      us.filterMap (telegram_enqueue_of st.chat_id) := telegram_poll_enqueued_eq st _
  refine ⟨?_, ?_, ?_⟩
  · intro e he
    rw [hchar] at he
    obtain ⟨u, hu, hsome⟩ := List.mem_filterMap.mp he
    obtain ⟨hcfg, m, c, t, cid, hm, hc, ht, hid, hcid, he'⟩ :=
      telegram_enqueue_of_inv st.chat_id u e hsome
    exact ⟨hcfg, u, hu, m, c, t, cid, hm, hc, ht, hid, hcid, by rw [he']⟩
  · intro h0
    rw [hchar]
    rw [List.filterMap_eq_nil_iff]
    intro u hu
    rcases hsome : telegram_enqueue_of st.chat_id u with _ | e
    · rfl
    · exact absurd h0 (telegram_enqueue_of_inv st.chat_id u e hsome).1
  · intro u hu m c t cid hm hc ht hid hcfg hne
    constructor
    · have hlogs : (telegram_poll st (.updates us)).logs =
          us.flatMap (telegram_logs_of st.chat_id) := by
        simp [telegram_poll, telegram_poll_foldl_eq]
      rw [hlogs]
      refine List.mem_flatMap.mpr ⟨u, hu, ?_⟩
      rcases u with ⟨uid, umsg⟩
      simp only at hm
      subst hm
      rcases m with ⟨mc, mt⟩
      simp only at hc ht
      subst hc; subst ht
      rcases c with ⟨cidf⟩
      simp only at hid
      subst hid
      simp [telegram_logs_of, hcfg, hne]
    · rcases u with ⟨uid, umsg⟩
      simp only at hm
      subst hm
      rcases m with ⟨mc, mt⟩
      simp only at hc ht
      subst hc; subst ht
      rcases c with ⟨cidf⟩
      simp only at hid
      subst hid
      simp [telegram_enqueue_of, hcfg, hne]

theorem poll_enqueue_requires_authorized_chat_witness :
    (telegram_poll ⟨0, 0⟩ (.updates [⟨some 1, some ⟨some ⟨some 5⟩, some "x"⟩⟩])).enqueued
      = [] :=
  (poll_enqueue_requires_authorized_chat ⟨0, 0⟩
    [⟨some 1, some ⟨some ⟨some 5⟩, some "x"⟩⟩]).2.1 rfl

/-- C3 counterexample: the poll that receives update 100 from the authorised
chat 7 enqueues the derived message and moves `s_last_update_id` from 0 to
100, yet performs no store write at all (`telegram.c` contains no
`memory_put`): the new value is not persisted before — nor after — the
message is placed on the agent input queue. -/
theorem poll_persists_nothing_counterexample :
    (telegram_poll ⟨0, 7⟩
        (.updates [⟨some 100, some ⟨some ⟨some 7⟩, some "hi"⟩⟩])).enqueued =
      [⟨some 100, "hi"⟩] ∧
    (telegram_poll ⟨0, 7⟩
        (.updates [⟨some 100, some ⟨some ⟨some 7⟩, some "hi"⟩⟩])).st.last_update_id = 100 ∧
    (telegram_poll ⟨0, 7⟩
        (.updates [⟨some 100, some ⟨some ⟨some 7⟩, some "hi"⟩⟩])).store_writes = [] := by
  refine ⟨?_, ?_, ?_⟩ <;> rfl

/-- C3 (amended): across every sequence of chat polls in which the chat API
honours the requested offsets, `last-seen-update-id` is monotonically
non-decreasing; but it is held in RAM only and never persisted to the store
— no poll path performs a store write (replay after reboot is instead
prevented by the startup flush). -/
theorem poll_last_monotone_and_never_persisted (st : TgState) (rs : List PollResponse)
    (h : seqRespectsOffsets st rs = true) :
    st.last_update_id ≤ (telegram_poll_seq st rs).1.last_update_id ∧
    ∀ (st' : TgState) (r : PollResponse), (telegram_poll st' r).store_writes = [] :=
  ⟨telegram_poll_seq_last_mono rs st h, telegram_poll_store_writes_eq⟩

theorem poll_last_monotone_and_never_persisted_witness :
    (⟨3, 7⟩ : TgState).last_update_id ≤
      (telegram_poll_seq ⟨3, 7⟩
        [.updates [⟨some 4, some ⟨some ⟨some 7⟩, some "a"⟩⟩]]).1.last_update_id ∧
    ∀ (st' : TgState) (r : PollResponse), (telegram_poll st' r).store_writes = [] :=
  poll_last_monotone_and_never_persisted ⟨3, 7⟩
    [.updates [⟨some 4, some ⟨some ⟨some 7⟩, some "a"⟩⟩]] (by decide)

/-- C4: when the HTTP body of a poll overflows the 4096-byte response buffer
and at least one `update_id` is recoverable from the partial buffer, the
poller advances `last-seen-update-id` to the highest recoverable id,
enqueues nothing from that batch, and the poll returns success; when no id
is recoverable the poll returns failure. -/
theorem poll_truncated_recovery (st : TgState) (ids : List Int) (h : ids ≠ []) :
    (telegram_poll st (.truncated ids)).ok = true ∧
    (telegram_poll st (.truncated ids)).st.last_update_id ∈ ids ∧
    (∀ i ∈ ids, i ≤ (telegram_poll st (.truncated ids)).st.last_update_id) ∧
    (telegram_poll st (.truncated ids)).enqueued = [] ∧
    (telegram_poll st (.truncated [])).ok = false := by
  obtain ⟨m, hm, hmem, hub⟩ := telegram_extract_max_spec ids h
  have hst : (telegram_poll st (.truncated ids)).st.last_update_id = m := by
    simp [telegram_poll, hm]
  refine ⟨by simp [telegram_poll, hm], ?_, ?_, by simp [telegram_poll, hm], ?_⟩
  · rw [hst]; exact hmem
  · intro i hi; rw [hst]; exact hub i hi
  · simp [telegram_poll, telegram_extract_max_update_id]

theorem poll_truncated_recovery_witness :
    (telegram_poll ⟨199, 7⟩ (.truncated [230, 200])).ok = true ∧
    (telegram_poll ⟨199, 7⟩ (.truncated [230, 200])).st.last_update_id ∈
      ([230, 200] : List Int) ∧
    (∀ i ∈ ([230, 200] : List Int),
      i ≤ (telegram_poll ⟨199, 7⟩ (.truncated [230, 200])).st.last_update_id) ∧
    (telegram_poll ⟨199, 7⟩ (.truncated [230, 200])).enqueued = [] ∧
    (telegram_poll ⟨199, 7⟩ (.truncated [])).ok = false :=
  poll_truncated_recovery ⟨199, 7⟩ [230, 200] (by decide)

/-- C1: after the startup flush runs while the chat API holds pending
updates whose highest id is `N` (step 1 of the flush, `offset=-1&limit=1`,
returns that update), the poller's last-seen id equals `N`; the first
steady-state poll requests `offset = N + 1` with `limit = 1`; and — as long
as the chat API honours the requested offsets — no message derived from any
flushed update (id ≤ N) is ever enqueued onto the agent input queue: every
enqueued message carries an update id strictly greater than `N`. -/
theorem flush_then_polls_never_replay (st0 : TgState) (N : Int)
    (hN : N ≠ 0) (hNr : N.natAbs ≤ 2 ^ 53)
    (r : PollResponse) (rs : List PollResponse)
    (hseq : seqRespectsOffsets (telegram_flush_pending st0 200 (some N)).1 (r :: rs)
      = true) :
    (telegram_flush_pending st0 200 (some N)).1.last_update_id = N ∧
    (telegram_poll (telegram_flush_pending st0 200 (some N)).1 r).request = ⟨N + 1, 1⟩ ∧
    ∀ e ∈ (telegram_poll_seq (telegram_flush_pending st0 200 (some N)).1 (r :: rs)).2,
      ∃ m, e.update_id = some m ∧ N < m := by
  have hflush : (telegram_flush_pending st0 200 (some N)).1 =
      { st0 with last_update_id := N } := by
    simp [telegram_flush_pending, cjson_number_as_i64_eq_of_le N hNr, hN]
  refine ⟨by rw [hflush], ?_, ?_⟩
  · rw [hflush, telegram_poll_request_eq]
  · intro e he
    have := telegram_poll_seq_enqueued_gt (r :: rs) _ hseq e he
    rwa [hflush] at this

theorem flush_then_polls_never_replay_witness :
    (telegram_flush_pending ⟨0, 7⟩ 200 (some 105)).1.last_update_id = 105 ∧
    (telegram_poll (telegram_flush_pending ⟨0, 7⟩ 200 (some 105)).1
        (.updates [⟨some 106, some ⟨some ⟨some 7⟩, some "hello"⟩⟩])).request
      = ⟨105 + 1, 1⟩ ∧
    ∀ e ∈ (telegram_poll_seq (telegram_flush_pending ⟨0, 7⟩ 200 (some 105)).1
        [.updates [⟨some 106, some ⟨some ⟨some 7⟩, some "hello"⟩⟩]]).2,
      ∃ m, e.update_id = some m ∧ 105 < m :=
  flush_then_polls_never_replay ⟨0, 7⟩ 105 (by decide) (by decide)
    (.updates [⟨some 106, some ⟨some ⟨some 7⟩, some "hello"⟩⟩]) [] (by decide)

/-- C5 counterexample: the update id `2 ^ 53 + 1` fits comfortably in a
signed 64-bit integer, but the poller reads it through cJSON's double path
(`(int64_t)update_id->valuedouble`, line 330 of `telegram.c`) and ends up
with `2 ^ 53`, not the received value — ids are not read as strings or
big-int. -/
theorem update_id_double_path_counterexample :
    (telegram_poll ⟨0, 7⟩
        (.updates [⟨some 9007199254740993,
          some ⟨some ⟨some 7⟩, some "x"⟩⟩])).st.last_update_id ≠ 9007199254740993 ∧
    cjson_number_as_i64 9007199254740993 = 9007199254740992 := by
  refine ⟨?_, ?_⟩ <;> decide

/-- C5 (amended): update ids and chat ids are parsed through cJSON's
double-precision number path, which is exact only for values of magnitude at
most `2 ^ 53`; and the precision-loss check logs only for chat ids whose
parsed (already rounded) value exceeds `2 ^ 53` — update ids are never
checked. -/
theorem cjson_id_parsing_amended :
    (∀ v : Int, v.natAbs ≤ 2 ^ 53 → cjson_number_as_i64 v = v) ∧
    (∀ (chat_cfg : Int) (uid : Option Int) (cid : Int) (t : String),
      TgLog.precisionLoss ∈
          telegram_logs_of chat_cfg ⟨uid, some ⟨some ⟨some cid⟩, some t⟩⟩ ↔
        2 ^ 53 < cjson_number_as_i64 cid) := by
  refine ⟨cjson_number_as_i64_eq_of_le, ?_⟩
  intro chat_cfg uid cid t
  simp only [telegram_logs_of]
  split_ifs <;> simp_all

theorem cjson_id_parsing_amended_witness :
    cjson_number_as_i64 42 = 42 ∧
    (TgLog.precisionLoss ∈
        telegram_logs_of 7 ⟨some 1, some ⟨some ⟨some 9007199254740995⟩, some "x"⟩⟩ ↔
      2 ^ 53 < cjson_number_as_i64 9007199254740995) :=
  ⟨cjson_id_parsing_amended.1 42 (by decide),
   cjson_id_parsing_amended.2 7 (some 1) 9007199254740995 "x"⟩

/-! ## Exponential backoff (`get_backoff_delay_ms`, `telegram_poll_task`) -/

/-- The doubling loop of `get_backoff_delay_ms` (lines 406–409 of
`telegram.c`): `for (i = 1; i < n && delay < BACKOFF_MAX_MS; i++)
delay *= BACKOFF_MULTIPLIER`, written with the remaining iteration count
`n - i` as the structural argument. -/
def backoff_loop : Nat → Nat → Nat
  | 0, delay => delay
  | k + 1, delay => if delay < 300000 then backoff_loop k (delay * 2) else delay

/-- `get_backoff_delay_ms` (lines 400–416 of `telegram.c`), with
`BACKOFF_BASE_MS = 5000`, `BACKOFF_MAX_MS = 300000`,
`BACKOFF_MULTIPLIER = 2`. -/
def get_backoff_delay_ms (n : Nat) : Nat :=
  if n = 0 then 0
  else
    let delay := backoff_loop (n - 1) 5000
    if delay > 300000 then 300000 else delay

/-- One round of the failure accounting in `telegram_poll_task` (lines
508–523 of `telegram.c`): on poll failure the consecutive-failure counter is
incremented and the task sleeps the computed backoff; on success the counter
resets to 0 and no backoff sleep happens.  (The fixed
`TELEGRAM_POLL_INTERVAL` delay applied after every iteration alike is the
poll cadence, not backoff, and `config.h` is not under `src/`.)  Returns the
new counter and the backoff sleep in ms. -/
def telegram_poll_task_step (failures : Nat) (poll_ok : Bool) : Nat × Nat :=
  if poll_ok then (0, 0)
  else (failures + 1, get_backoff_delay_ms (failures + 1))

theorem backoff_loop_pow (k : Nat) :
    ∀ j, backoff_loop k (5000 * 2 ^ j) = 5000 * 2 ^ (min (j + k) (max j 6)) := by
  induction k with
  | zero =>
    intro j
    have : min (j + 0) (max j 6) = j := by
      have := le_max_left j 6
      omega
    rw [this]
    rfl
  | succ k ih =>
    intro j
    show (if 5000 * 2 ^ j < 300000 then backoff_loop k (5000 * 2 ^ j * 2)
      else 5000 * 2 ^ j) = _
    rcases le_or_lt j 5 with hj | hj
    · have h2 : (2 : Nat) ^ j ≤ 2 ^ 5 := Nat.pow_le_pow_right (by norm_num) hj
      rw [if_pos (by omega)]
      have : 5000 * 2 ^ j * 2 = 5000 * 2 ^ (j + 1) := by ring
      rw [this, ih (j + 1)]
      have : min (j + 1 + k) (max (j + 1) 6) = min (j + (k + 1)) (max j 6) := by
        omega
      rw [this]
    · have h2 : (2 : Nat) ^ 6 ≤ 2 ^ j := Nat.pow_le_pow_right (by norm_num) (by omega)
      rw [if_neg (by omega)]
      have : min (j + (k + 1)) (max j 6) = j := by omega
      rw [this]

theorem get_backoff_delay_ms_eq (n : Nat) (h : 1 ≤ n) :
    get_backoff_delay_ms n = min (5000 * 2 ^ (n - 1)) 300000 := by
  have hb := backoff_loop_pow (n - 1) 0
  norm_num at hb
  unfold get_backoff_delay_ms
  rw [if_neg (by omega)]
  simp only [hb]
  rcases le_or_lt (n - 1) 5 with hk | hk
  · have hmin : min (n - 1) 6 = n - 1 := by omega
    have h2 : (2 : Nat) ^ (n - 1) ≤ 2 ^ 5 := Nat.pow_le_pow_right (by norm_num) hk
    rw [hmin, if_neg (by omega)]
    have h3 : 0 < (2 : Nat) ^ (n - 1) := Nat.pos_pow_of_pos _ (by norm_num)
    omega
  · have hmin : min (n - 1) 6 = 6 := by omega
    have h2 : (2 : Nat) ^ 6 ≤ 2 ^ (n - 1) := Nat.pow_le_pow_right (by norm_num) (by omega)
    rw [hmin, if_pos (by norm_num)]
    omega

/-- C6: after `n ≥ 1` consecutive poll failures the poller sleeps exactly
`min(5000 ms × 2 ^ (n − 1), 300000 ms)` of backoff before the next poll, and
after any successful poll the consecutive-failure counter resets so the
computed backoff delay returns to 0. -/
theorem backoff_formula (n : Nat) (h : 1 ≤ n) :
    telegram_poll_task_step (n - 1) false = (n, min (5000 * 2 ^ (n - 1)) 300000) ∧
    (∀ m, telegram_poll_task_step m true = (0, 0)) ∧
    get_backoff_delay_ms 0 = 0 := by
  refine ⟨?_, fun m => rfl, rfl⟩
  unfold telegram_poll_task_step
  rw [if_neg (by simp)]
  have : n - 1 + 1 = n := by omega
  rw [this, get_backoff_delay_ms_eq n h]

theorem backoff_formula_witness :
    telegram_poll_task_step (7 - 1) false = (7, min (5000 * 2 ^ (7 - 1)) 300000) ∧
    (∀ m, telegram_poll_task_step m true = (0, 0)) ∧
    get_backoff_delay_ms 0 = 0 :=
  backoff_formula 7 (by decide)

/-! ## I2C scan tool handler (`src/unnamed/part_001`, tools gpio/i2c file) -/

/-- GPIO configuration constants from `config.h` (not under `src/`):
`GPIO_ALLOWED_PINS_CSV` is abstracted as the list of pin numbers its CSV
text parses to plus the flag whether the string is non-empty, and
`GPIO_MIN_PIN` / `GPIO_MAX_PIN` as integers. -/
structure GpioConfig where
  allowed_pins_csv : List Int
  csv_nonempty : Bool
  min_pin : Int
  max_pin : Int

/-- `gpio_pin_in_allowlist` (lines 20–55): membership of the pin in the
parsed CSV allow-list. -/
def gpio_pin_in_allowlist (csv : List Int) (pin : Int) : Bool :=
  csv.contains pin

/-- `gpio_pin_is_allowed` (lines 57–63): the CSV allow-list when configured
non-empty, the `[GPIO_MIN_PIN, GPIO_MAX_PIN]` range otherwise. -/
def gpio_pin_is_allowed (cfg : GpioConfig) (pin : Int) : Bool :=
  if cfg.csv_nonempty then gpio_pin_in_allowlist cfg.allowed_pins_csv pin
  else decide (cfg.min_pin ≤ pin) && decide (pin ≤ cfg.max_pin)

/-- `validate_scan_pin` (lines 65–76): `none` when the pin is allowed,
otherwise the error message naming the violated constraint. -/
def validate_scan_pin (cfg : GpioConfig) (field_name : String) (pin : Int) : Option String :=
  if gpio_pin_is_allowed cfg pin then none
  else
    some
      (if cfg.csv_nonempty then
        "Error: " ++ field_name ++ " pin " ++ toString pin ++ " is not in allowed list"
      else
        "Error: " ++ field_name ++ " pin must be " ++ toString cfg.min_pin ++ "-" ++
          toString cfg.max_pin)

/-- A JSON field as the handlers see it through cJSON: absent, present but
not a number, or a number (modelled by its integer value). -/
inductive JsonNumField where
  | absent
  | notNumber
  | num (v : Int)
deriving DecidableEq

/-- The driver operations `tools_i2c_scan_handler` can perform on the I2C
port, in program order, each with its success flag where the code checks
one. -/
inductive I2COp where
  | driverDelete
  | paramConfig (ok : Bool)
  | driverInstall (ok : Bool)
deriving DecidableEq

/-- Whether the I2C driver is installed after a trace of operations, given
whether it was installed before: `i2c_driver_delete` uninstalls, a
successful `i2c_driver_install` installs. -/
def installed_after (init : Bool) (tr : List I2COp) : Bool :=
  tr.foldl
    (fun b op =>
      match op with
      | .driverDelete => false
      | .paramConfig _ => b
      | .driverInstall ok => ok || b)
    init

/-- The hardware environment of one scan: whether `i2c_param_config` and
`i2c_driver_install` succeed, and per 7-bit address whether
`i2c_cmd_link_create` returns a handle and whether the probe
(`i2c_master_cmd_begin`) acknowledges. -/
structure I2CEnv where
  param_config_ok : Bool
  install_ok : Bool
  cmd_link_ok : Nat → Bool
  probe_ok : Nat → Bool

/-- The input object of `tools_i2c_scan_handler`. -/
structure I2CScanInput where
  sda_pin : JsonNumField
  scl_pin : JsonNumField
  frequency_hz : JsonNumField

/-- What one call of `tools_i2c_scan_handler` produces: the handler's
boolean result, the text written into the result buffer (modelled without
the 512-byte `snprintf` truncation, which no claim touches), and the trace
of I2C driver operations performed. -/
structure I2CScanResult where
  ok : Bool
  result : String
  trace : List I2COp

/-- The address probe loop (lines 153–175): walk the addresses, abort when
`i2c_cmd_link_create` fails, record every acknowledged address.  Returns
whether every command link allocation succeeded together with the addresses
found (on allocation failure the handler discards them anyway). -/
def i2c_scan_run (env : I2CEnv) : List Nat → Bool × List Nat
  | [] => (true, [])
  | a :: rest =>
    if env.cmd_link_ok a then
      let r := i2c_scan_run env rest
      (r.1, (if env.probe_ok a then [a] else []) ++ r.2)
    else (false, [])

/-- The scanned address range `I2C_SCAN_ADDR_FIRST .. I2C_SCAN_ADDR_LAST`
(0x03 .. 0x77). -/
def i2c_scan_addrs : List Nat := List.range' 3 117

/-- Upper-case hex digit. -/
def hexDigit (n : Nat) : Char :=
  if n < 10 then Char.ofNat (48 + n) else Char.ofNat (55 + n)

/-- `"0x%02X"` for a 7-bit address. -/
def hexByte (n : Nat) : String :=
  String.mk ['0', 'x', hexDigit (n / 16 % 16), hexDigit (n % 16)]

/-- The effective scan frequency (lines 95–103): `I2C_SCAN_DEFAULT_FREQ_HZ`
(100000) when the field is absent, the field's value when numeric, `none`
(an error) when present but not a number. -/
def i2c_effective_freq : JsonNumField → Option Int
  | .absent => some 100000
  | .notNumber => none
  | .num v => some v

/-- `tools_i2c_scan_handler` (lines 78–231 of the tools gpio/i2c file).
Validation in program order: required numeric pins, numeric frequency when
present, distinct pins, both pins allowed, frequency within
`[I2C_SCAN_MIN_FREQ_HZ, I2C_SCAN_MAX_FREQ_HZ]` = [10000, 1000000]; every
validation failure returns before any driver operation.  Then the pre-clean
`i2c_driver_delete`, `i2c_param_config`, `i2c_driver_install`, the probe
loop, and a final `i2c_driver_delete` on each of its exits.  The
`esp_err_to_name` suffix of the two driver error messages and the snprintf
truncation of long result strings are elided. -/
def tools_i2c_scan_handler (cfg : GpioConfig) (env : I2CEnv) (input : I2CScanInput) :
    I2CScanResult :=
  match input.sda_pin with
  | .absent => ⟨false, "Error: 'sda_pin' required (number)", []⟩
  | .notNumber => ⟨false, "Error: 'sda_pin' required (number)", []⟩
  | .num sda_pin =>
    match input.scl_pin with
    | .absent => ⟨false, "Error: 'scl_pin' required (number)", []⟩
    | .notNumber => ⟨false, "Error: 'scl_pin' required (number)", []⟩
    | .num scl_pin =>
      match i2c_effective_freq input.frequency_hz with
      | none => ⟨false, "Error: 'frequency_hz' must be a number", []⟩
      | some frequency_hz =>
        if sda_pin = scl_pin then
          ⟨false, "Error: SDA and SCL must be different pins", []⟩
        else
          match validate_scan_pin cfg "SDA" sda_pin with
          | some msg => ⟨false, msg, []⟩
          | none =>
            match validate_scan_pin cfg "SCL" scl_pin with
            | some msg => ⟨false, msg, []⟩
            | none =>
              if frequency_hz < 10000 ∨ 1000000 < frequency_hz then
                ⟨false, "Error: frequency_hz must be 10000-1000000", []⟩
              else if ¬ env.param_config_ok then
                ⟨false, "Error: i2c_param_config failed",
                  [.driverDelete, .paramConfig false]⟩
              else if ¬ env.install_ok then
                ⟨false, "Error: i2c_driver_install failed",
                  [.driverDelete, .paramConfig true, .driverInstall false]⟩
              else
                let scan := i2c_scan_run env i2c_scan_addrs
                if ¬ scan.1 then
                  ⟨false, "Error: out of memory during I2C scan",
                    [.driverDelete, .paramConfig true, .driverInstall true, .driverDelete]⟩
                else if scan.2 = [] then
                  ⟨true,
                    "No I2C devices found on SDA=" ++ toString sda_pin ++ " SCL=" ++
                      toString scl_pin ++ " @ " ++ toString frequency_hz ++ " Hz",
                    [.driverDelete, .paramConfig true, .driverInstall true, .driverDelete]⟩
                else
                  ⟨true,
                    "Found " ++ toString scan.2.length ++ " I2C device(s) on SDA=" ++
                      toString sda_pin ++ " SCL=" ++ toString scl_pin ++ " @ " ++
                      toString frequency_hz ++ " Hz: " ++
                      String.intercalate ", " (scan.2.map hexByte),
                    [.driverDelete, .paramConfig true, .driverInstall true, .driverDelete]⟩

/-- C7: the i2c_scan handler returns Err with a message naming the violated
constraint, before any I2C driver operation, whenever the pins are equal,
either pin is not allowed (CSV allow-list when configured, `[min, max]`
range otherwise), or the effective frequency lies outside
`[10000, 1000000]`; and an omitted `frequency_hz` behaves exactly as the
default 100000 Hz. -/
theorem i2c_scan_validation_rejects_before_driver (cfg : GpioConfig) (env : I2CEnv)
    (sda scl : Int) (ff : JsonNumField) (freq : Int)
    (hfreq : i2c_effective_freq ff = some freq)
    (hviol : sda = scl ∨ gpio_pin_is_allowed cfg sda = false ∨
      gpio_pin_is_allowed cfg scl = false ∨ freq < 10000 ∨ 1000000 < freq) :
    (tools_i2c_scan_handler cfg env ⟨.num sda, .num scl, ff⟩).ok = false ∧
    (tools_i2c_scan_handler cfg env ⟨.num sda, .num scl, ff⟩).trace = [] ∧
    (sda = scl →
      (tools_i2c_scan_handler cfg env ⟨.num sda, .num scl, ff⟩).result =
        "Error: SDA and SCL must be different pins") ∧
    (sda ≠ scl → gpio_pin_is_allowed cfg sda = false →
      (tools_i2c_scan_handler cfg env ⟨.num sda, .num scl, ff⟩).result =
        (if cfg.csv_nonempty then
          "Error: SDA pin " ++ toString sda ++ " is not in allowed list"
         else
          "Error: SDA pin must be " ++ toString cfg.min_pin ++ "-" ++
            toString cfg.max_pin)) ∧
    (sda ≠ scl → gpio_pin_is_allowed cfg sda = true → gpio_pin_is_allowed cfg scl = false →
      (tools_i2c_scan_handler cfg env ⟨.num sda, .num scl, ff⟩).result =
        (if cfg.csv_nonempty then
          "Error: SCL pin " ++ toString scl ++ " is not in allowed list"
         else
          "Error: SCL pin must be " ++ toString cfg.min_pin ++ "-" ++
            toString cfg.max_pin)) ∧
    (sda ≠ scl → gpio_pin_is_allowed cfg sda = true → gpio_pin_is_allowed cfg scl = true →
      (freq < 10000 ∨ 1000000 < freq) →
      (tools_i2c_scan_handler cfg env ⟨.num sda, .num scl, ff⟩).result =
        "Error: frequency_hz must be 10000-1000000") ∧
    tools_i2c_scan_handler cfg env ⟨.num sda, .num scl, .absent⟩ =
      tools_i2c_scan_handler cfg env ⟨.num sda, .num scl, .num 100000⟩ := by
  have hfail : (tools_i2c_scan_handler cfg env ⟨.num sda, .num scl, ff⟩).ok = false ∧
      (tools_i2c_scan_handler cfg env ⟨.num sda, .num scl, ff⟩).trace = [] := by
    by_cases h1 : sda = scl
    · simp [tools_i2c_scan_handler, hfreq, h1]
    · by_cases h2 : gpio_pin_is_allowed cfg sda = true
      · by_cases h3 : gpio_pin_is_allowed cfg scl = true
        · have h4 : freq < 10000 ∨ 1000000 < freq := by
            rcases hviol with h | h | h | h | h
            · exact absurd h h1
            · rw [h2] at h; cases h
            · rw [h3] at h; cases h
            · exact Or.inl h
            · exact Or.inr h
          simp [tools_i2c_scan_handler, hfreq, h1, validate_scan_pin, h2, h3, h4]
        · simp [tools_i2c_scan_handler, hfreq, h1, validate_scan_pin, h2, h3]
      · simp [tools_i2c_scan_handler, hfreq, h1, validate_scan_pin, h2]
  refine ⟨hfail.1, hfail.2, ?_, ?_, ?_, ?_, rfl⟩
  · intro h1
    simp [tools_i2c_scan_handler, hfreq, h1]
  · intro h1 h2
    simp [tools_i2c_scan_handler, hfreq, h1, validate_scan_pin, h2]
  · intro h1 h2 h3
    simp [tools_i2c_scan_handler, hfreq, h1, validate_scan_pin, h2, h3]
  · intro h1 h2 h3 h4
    simp [tools_i2c_scan_handler, hfreq, h1, validate_scan_pin, h2, h3, h4]

theorem i2c_scan_validation_rejects_before_driver_witness :
    (tools_i2c_scan_handler ⟨[], false, 0, 39⟩ ⟨true, true, fun _ => true, fun _ => true⟩
      ⟨.num 5, .num 5, .absent⟩).ok = false ∧
    (tools_i2c_scan_handler ⟨[], false, 0, 39⟩ ⟨true, true, fun _ => true, fun _ => true⟩
      ⟨.num 5, .num 5, .absent⟩).trace = [] ∧
    ((5 : Int) = 5 →
      (tools_i2c_scan_handler ⟨[], false, 0, 39⟩ ⟨true, true, fun _ => true, fun _ => true⟩
        ⟨.num 5, .num 5, .absent⟩).result = "Error: SDA and SCL must be different pins") ∧
    ((5 : Int) ≠ 5 → gpio_pin_is_allowed ⟨[], false, 0, 39⟩ 5 = false →
      (tools_i2c_scan_handler ⟨[], false, 0, 39⟩ ⟨true, true, fun _ => true, fun _ => true⟩
        ⟨.num 5, .num 5, .absent⟩).result =
        (if (⟨[], false, 0, 39⟩ : GpioConfig).csv_nonempty then
          "Error: SDA pin " ++ toString (5 : Int) ++ " is not in allowed list"
         else
          "Error: SDA pin must be " ++ toString (⟨[], false, 0, 39⟩ : GpioConfig).min_pin ++
            "-" ++ toString (⟨[], false, 0, 39⟩ : GpioConfig).max_pin)) ∧
    ((5 : Int) ≠ 5 → gpio_pin_is_allowed ⟨[], false, 0, 39⟩ 5 = true →
      gpio_pin_is_allowed ⟨[], false, 0, 39⟩ 5 = false →
      (tools_i2c_scan_handler ⟨[], false, 0, 39⟩ ⟨true, true, fun _ => true, fun _ => true⟩
        ⟨.num 5, .num 5, .absent⟩).result =
        (if (⟨[], false, 0, 39⟩ : GpioConfig).csv_nonempty then
          "Error: SCL pin " ++ toString (5 : Int) ++ " is not in allowed list"
         else
          "Error: SCL pin must be " ++ toString (⟨[], false, 0, 39⟩ : GpioConfig).min_pin ++
            "-" ++ toString (⟨[], false, 0, 39⟩ : GpioConfig).max_pin)) ∧
    ((5 : Int) ≠ 5 → gpio_pin_is_allowed ⟨[], false, 0, 39⟩ 5 = true →
      gpio_pin_is_allowed ⟨[], false, 0, 39⟩ 5 = true →
      ((100000 : Int) < 10000 ∨ (1000000 : Int) < 100000) →
      (tools_i2c_scan_handler ⟨[], false, 0, 39⟩ ⟨true, true, fun _ => true, fun _ => true⟩
        ⟨.num 5, .num 5, .absent⟩).result = "Error: frequency_hz must be 10000-1000000") ∧
    tools_i2c_scan_handler ⟨[], false, 0, 39⟩ ⟨true, true, fun _ => true, fun _ => true⟩
        ⟨.num 5, .num 5, .absent⟩ =
      tools_i2c_scan_handler ⟨[], false, 0, 39⟩ ⟨true, true, fun _ => true, fun _ => true⟩
        ⟨.num 5, .num 5, .num 100000⟩ :=
  i2c_scan_validation_rejects_before_driver ⟨[], false, 0, 39⟩
    ⟨true, true, fun _ => true, fun _ => true⟩ 5 5 .absent 100000 rfl (Or.inl rfl)

/-- Every run of the scan handler ends with one of four driver traces. -/
theorem i2c_scan_trace_cases (cfg : GpioConfig) (env : I2CEnv) (input : I2CScanInput) :
    (tools_i2c_scan_handler cfg env input).trace = [] ∨
    (tools_i2c_scan_handler cfg env input).trace =
      [.driverDelete, .paramConfig false] ∨
    (tools_i2c_scan_handler cfg env input).trace =
      [.driverDelete, .paramConfig true, .driverInstall false] ∨
    (tools_i2c_scan_handler cfg env input).trace =
      [.driverDelete, .paramConfig true, .driverInstall true, .driverDelete] := by
  rcases input with ⟨sf, scf, ff⟩
  rcases sf <;> rcases scf <;> rcases ff <;>
    simp only [tools_i2c_scan_handler, i2c_effective_freq] <;>
    (repeat' split) <;> simp

/-- C8: on every return of the i2c_scan handler after the I2C driver has
been installed — scan completed (devices or not) or command-link allocation
failed mid-scan — the driver has been deleted again: no execution path
leaves the driver installed. -/
theorem i2c_scan_driver_always_deleted (cfg : GpioConfig) (env : I2CEnv)
    (input : I2CScanInput) (init : Bool)
    (h : I2COp.driverInstall true ∈ (tools_i2c_scan_handler cfg env input).trace) :
    installed_after init (tools_i2c_scan_handler cfg env input).trace = false := by
  rcases i2c_scan_trace_cases cfg env input with h' | h' | h' | h'
  · rw [h'] at h; cases h
  · rw [h'] at h; simp at h
  · rw [h'] at h; simp at h
  · rw [h']; rfl

theorem i2c_scan_driver_always_deleted_witness :
    installed_after true
      (tools_i2c_scan_handler ⟨[], false, 0, 39⟩ ⟨true, true, fun _ => true, fun _ => true⟩
        ⟨.num 4, .num 5, .absent⟩).trace = false :=
  i2c_scan_driver_always_deleted ⟨[], false, 0, 39⟩
    ⟨true, true, fun _ => true, fun _ => true⟩ ⟨.num 4, .num 5, .absent⟩ true (by decide)

/-! ## User tool creation (`src/main/tools_system.c`) -/

/-- A persisted user tool: the {name, description, action} triplet of §3 of
the spec. -/
structure UserTool where
  name : String
  description : String
  action : String
deriving DecidableEq

/-- Modelled from the spec: `user_tools_create` is declared in
`user_tools.h` but `user_tools.c` is not under `src/`.  Per §3 user tools
are {name, description, action-text} triplets persisted under a dedicated
namespace and capped at K entries (K ≤ 16); per §4.C a duplicate name makes
registration fail.  Creation therefore succeeds exactly when the name is not
already present and the cap is not reached, appending the new triplet. -/
def user_tools_create (K : Nat) (store : List UserTool)
    (name description action : String) : Option (List UserTool) :=
  if store.any fun t => t.name = name then none
  else if K ≤ store.length then none
  else some (store ++ [⟨name, description, action⟩])

/-- The character test of the name-validation loop of
`tools_create_tool_handler` (lines 79–86 of `tools_system.c`). -/
def valid_tool_name_char (c : Char) : Bool :=
  ('a' ≤ c && c ≤ 'z') || ('A' ≤ c && c ≤ 'Z') || ('0' ≤ c && c ≤ '9') || c = '_'

/-- The input object of `tools_create_tool_handler`: each field is present
iff it is a string (absent and non-string produce the same error). -/
structure CreateToolInput where
  name : Option String
  description : Option String
  action : Option String

/-- Handler outcome together with the user-tool store after the call. -/
structure CreateToolResult where
  ok : Bool
  result : String
  store : List UserTool
deriving DecidableEq

/-- `tools_create_tool_handler` (lines 55–95 of `tools_system.c`): requires
the three string fields, then walks the name rejecting any character outside
`[A-Za-z0-9_]` — the C loop exits at the first bad character, which is
observationally the same as requiring all characters valid — and finally
calls `user_tools_create`.  The walk over the name's characters is written
over `String.data` (the character list) so that it stays computable by
recursion. -/
def tools_create_tool_handler (K : Nat) (store : List UserTool)
    (input : CreateToolInput) : CreateToolResult :=
  match input.name with
  | none => ⟨false, "Error: 'name' required (string, no spaces)", store⟩
  | some name =>
    match input.description with
    | none => ⟨false, "Error: 'description' required (short description)", store⟩
    | some description =>
      match input.action with
      | none => ⟨false, "Error: 'action' required (what to do when called)", store⟩
      | some action =>
        if name.data.all valid_tool_name_char then
          match user_tools_create K store name description action with
          | some store2 =>
            ⟨true, "Created tool '" ++ name ++ "': " ++ description, store2⟩
          | none =>
            ⟨false, "Error: failed to create tool (duplicate or limit reached)", store⟩
        else ⟨false, "Error: name must be alphanumeric/underscore, no spaces", store⟩

/-- C9 counterexample: the empty name violates the 1–32 length bound, yet
every one of its (zero) characters passes the character loop, the handler
never checks the length, and a user tool with a zero-length name is
created. -/
theorem create_tool_empty_name_counterexample :
    (tools_create_tool_handler 16 [] ⟨some "", some "d", some "a"⟩).ok = true ∧
    (tools_create_tool_handler 16 [] ⟨some "", some "d", some "a"⟩).store =
      [⟨"", "d", "a"⟩] ∧
    ("" : String).length = 0 := by
  refine ⟨?_, ?_, ?_⟩ <;> decide

/-- C9 (amended): the create_tool handler validates only the character set —
it returns Err and leaves the store unchanged whenever the name contains a
character outside `[A-Za-z0-9_]`; it enforces no length bounds, so any name
whose characters are all valid (the empty name and names longer than 32
included) is handed to `user_tools_create`, which fails only on a duplicate
name or the entry cap. -/
theorem create_tool_charset_only_validation (K : Nat) (store : List UserTool)
    (name description action : String) :
    (name.data.all valid_tool_name_char = false →
      tools_create_tool_handler K store ⟨some name, some description, some action⟩ =
        ⟨false, "Error: name must be alphanumeric/underscore, no spaces", store⟩) ∧
    (name.data.all valid_tool_name_char = true →
      ((tools_create_tool_handler K store
          ⟨some name, some description, some action⟩).ok = true ↔
        (∀ t ∈ store, t.name ≠ name) ∧ store.length < K) ∧
      ((tools_create_tool_handler K store
          ⟨some name, some description, some action⟩).ok = true →
        (tools_create_tool_handler K store
          ⟨some name, some description, some action⟩).store =
          store ++ [⟨name, description, action⟩])) := by
  constructor
  · intro hbad
    simp [tools_create_tool_handler, hbad]
  · intro hgood
    by_cases hdup : store.any (fun t => t.name = name) = true
    · have hno : ¬ ((∀ t ∈ store, t.name ≠ name) ∧ store.length < K) := by
        obtain ⟨t, ht, hteq⟩ := List.any_eq_true.mp hdup
        intro hcon
        exact hcon.1 t ht (by simpa using hteq)
      have hval : tools_create_tool_handler K store
          ⟨some name, some description, some action⟩ =
          ⟨false, "Error: failed to create tool (duplicate or limit reached)", store⟩ := by
        simp [tools_create_tool_handler, hgood, user_tools_create, hdup]
      rw [hval]
      exact ⟨⟨fun hok => absurd hok Bool.false_ne_true, fun hcon => absurd hcon hno⟩,
        fun hok => absurd hok Bool.false_ne_true⟩
    · by_cases hcap : K ≤ store.length
      · have hno : ¬ ((∀ t ∈ store, t.name ≠ name) ∧ store.length < K) := by
          intro hcon; omega
        have hval : tools_create_tool_handler K store
            ⟨some name, some description, some action⟩ =
            ⟨false, "Error: failed to create tool (duplicate or limit reached)", store⟩ := by
          simp [tools_create_tool_handler, hgood, user_tools_create, hdup, hcap]
        rw [hval]
        exact ⟨⟨fun hok => absurd hok Bool.false_ne_true, fun hcon => absurd hcon hno⟩,
          fun hok => absurd hok Bool.false_ne_true⟩
      · have hfree : ∀ t ∈ store, t.name ≠ name := by
          intro t ht hteq
          exact hdup (List.any_eq_true.mpr ⟨t, ht, by simpa using hteq⟩)
        have hval : tools_create_tool_handler K store
            ⟨some name, some description, some action⟩ =
            ⟨true, "Created tool '" ++ name ++ "': " ++ description,
              store ++ [⟨name, description, action⟩]⟩ := by
          simp [tools_create_tool_handler, hgood, user_tools_create, hdup, hcap]
        rw [hval]
        exact ⟨⟨fun _ => ⟨hfree, by omega⟩, fun _ => rfl⟩, fun _ => rfl⟩

theorem create_tool_charset_only_validation_witness :
    ((tools_create_tool_handler 16 []
        ⟨some "abcdefghijklmnopqrstuvwxyz0123456789_ABC", some "d", some "a"⟩).ok = true ↔
      (∀ t ∈ ([] : List UserTool),
        t.name ≠ "abcdefghijklmnopqrstuvwxyz0123456789_ABC") ∧
        ([] : List UserTool).length < 16) :=
  ((create_tool_charset_only_validation 16 []
    "abcdefghijklmnopqrstuvwxyz0123456789_ABC" "d" "a").2 (by decide)).1

/-! ## `i64_to_str` (lines 31–48 of `src/main/telegram.c`) -/

/-- The digit-writing do-while loop of `i64_to_str`: one decimal digit per
iteration, right to left, guarded by `if (p == buf) return "0"` before each
write.  `space` is the number of buffer cells left before `p` reaches `buf`
(initially `buf_size - 1`, the cell of the terminating NUL excluded); the
loop is structural on it.  Returns the digit characters most significant
first, or `none` when the overflow guard fires. -/
def write_digits : Nat → Nat → Option (List Char)
  | _, 0 => none
  | uval, space + 1 =>
    if uval / 10 = 0 then some [Char.ofNat (48 + uval % 10)]
    else
      match write_digits (uval / 10) space with
      | none => none
      | some ds => some (ds ++ [Char.ofNat (48 + uval % 10)])

/-- `i64_to_str(val, buf, buf_size)`, modelled by the string the returned
pointer points at.  `buf_size = 0` returns `""`; the magnitude
`negative ? (uint64_t)(-(val + 1)) + 1 : (uint64_t)val` is `val.natAbs` for
every int64 value (INT64_MIN included); the minus sign is written only when
a cell is left (`p != buf`), otherwise `"0"` is returned. -/
def i64_to_str (val : Int) (buf_size : Nat) : String :=
  if buf_size = 0 then ""
  else
    match write_digits val.natAbs (buf_size - 1) with
    | none => "0"
    | some ds =>
      if val < 0 then
        if ds.length + 1 ≤ buf_size - 1 then String.mk ('-' :: ds) else "0"
      else String.mk ds

/-- The decimal digit characters of `n`, most significant first, defined
through Mathlib's `Nat.digits` as the reference notion of decimal
representation. -/
def natDecChars (n : Nat) : List Char :=
  if n = 0 then ['0']
  else (Nat.digits 10 n).reverse.map fun d => Char.ofNat (48 + d)

theorem natDecChars_len_pos (n : Nat) : 1 ≤ (natDecChars n).length := by
  unfold natDecChars
  split
  · simp
  · rename_i h0
    simp only [List.length_map, List.length_reverse]
    exact List.length_pos.mpr (Nat.digits_ne_nil_iff_ne_zero.mpr h0)

theorem natDecChars_len_le_19 (n : Nat) (h : n ≤ 2 ^ 63) :
    (natDecChars n).length ≤ 19 := by
  unfold natDecChars
  split
  · simp
  · rename_i h0
    simp only [List.length_map, List.length_reverse]
    by_contra hlen
    push_neg at hlen
    have h1 := Nat.base_pow_length_digits_le 10 n (by norm_num) h0
    have h2 : (10 : Nat) ^ 20 ≤ 10 ^ (Nat.digits 10 n).length :=
      Nat.pow_le_pow_right (by norm_num) hlen
    have h3 : (10 : Nat) ^ 20 ≤ 10 * 2 ^ 63 := le_trans h2 (le_trans h1 (by omega))
    norm_num at h3

theorem natDecChars_single (n : Nat) (h : n < 10) :
    natDecChars n = [Char.ofNat (48 + n)] := by
  rcases Nat.eq_zero_or_pos n with rfl | hpos
  · rfl
  · unfold natDecChars
    rw [if_neg (by omega)]
    rw [Nat.digits_def' (by norm_num : (1 : Nat) < 10) hpos,
      Nat.div_eq_of_lt h, Nat.digits_zero]
    simp [Nat.mod_eq_of_lt h]

theorem natDecChars_step (n : Nat) (h : n / 10 ≠ 0) :
    natDecChars n = natDecChars (n / 10) ++ [Char.ofNat (48 + n % 10)] := by
  have h0 : n ≠ 0 := fun hz => h (by simp [hz])
  unfold natDecChars
  rw [if_neg h0, if_neg h]
  rw [Nat.digits_def' (by norm_num : (1 : Nat) < 10) (Nat.pos_of_ne_zero h0)]
  simp

theorem write_digits_eq (space : Nat) :
    ∀ n, write_digits n space =
      if (natDecChars n).length ≤ space then some (natDecChars n) else none := by
  induction space with
  | zero =>
    intro n
    rw [if_neg (by have := natDecChars_len_pos n; omega)]
    rfl
  | succ space ih =>
    intro n
    by_cases h10 : n / 10 = 0
    · have hn : n < 10 := by
        by_contra hge
        push_neg at hge
        have : 1 ≤ n / 10 := (Nat.one_le_div_iff (by norm_num)).mpr hge
        omega
      have hw : write_digits n (space + 1) = some [Char.ofNat (48 + n % 10)] := by
        show (if n / 10 = 0 then some [Char.ofNat (48 + n % 10)] else _) = _
        rw [if_pos h10]
      rw [hw, natDecChars_single n hn, Nat.mod_eq_of_lt hn,
        if_pos (by simp)]
    · have hw : write_digits n (space + 1) =
          match write_digits (n / 10) space with
          | none => none
          | some ds => some (ds ++ [Char.ofNat (48 + n % 10)]) := by
        show (if n / 10 = 0 then _ else _) = _
        rw [if_neg h10]
      rw [hw, ih (n / 10), natDecChars_step n h10]
      have hlen : (natDecChars (n / 10) ++ [Char.ofNat (48 + n % 10)]).length =
          (natDecChars (n / 10)).length + 1 := by simp
      by_cases hle : (natDecChars (n / 10)).length ≤ space
      · rw [if_pos hle, if_pos (by rw [hlen]; omega)]
      · rw [if_neg hle, if_neg (by rw [hlen]; omega)]

theorem i64_to_str_of_write_some (val : Int) (bs : Nat) (ds : List Char) (hbs : bs ≠ 0)
    (hw : write_digits val.natAbs (bs - 1) = some ds) :
    i64_to_str val bs =
      if val < 0 then
        (if ds.length + 1 ≤ bs - 1 then String.mk ('-' :: ds) else "0")
      else String.mk ds := by
  unfold i64_to_str
  rw [if_neg hbs, hw]

theorem i64_to_str_of_write_none (val : Int) (bs : Nat) (hbs : bs ≠ 0)
    (hw : write_digits val.natAbs (bs - 1) = none) :
    i64_to_str val bs = "0" := by
  unfold i64_to_str
  rw [if_neg hbs, hw]

/-- C10 counterexample: with a zero-byte destination buffer — trivially too
small to hold any representation — `i64_to_str` returns `""`
(`if (buf_size == 0) return "";`, line 33 of `telegram.c`), not the string
`"0"` the claim promises for too-small buffers. -/
theorem i64_to_str_zero_buf_counterexample :
    i64_to_str 5 0 = "" ∧ i64_to_str 5 0 ≠ "0" := by
  refine ⟨rfl, ?_⟩
  decide

/-- C10 (amended): for every int64 value (INT64_MIN included) and every
buffer of at least 21 bytes, `i64_to_str` returns the exact decimal
representation; with a smaller buffer it returns the representation exactly
when digits, sign and NUL fit, the string `"0"` when they do not and
`buf_size ≥ 1`, and `""` when `buf_size = 0` — never writing outside the
buffer. -/
theorem i64_to_str_full_spec (val : Int) (bs : Nat)
    (h1 : -(2 ^ 63) ≤ val) (h2 : val < 2 ^ 63) :
    (i64_to_str val 0 = "") ∧
    (1 ≤ bs → (natDecChars val.natAbs).length + (if val < 0 then 1 else 0) < bs →
      i64_to_str val bs =
        (if val < 0 then String.mk ('-' :: natDecChars val.natAbs)
         else String.mk (natDecChars val.natAbs))) ∧
    (1 ≤ bs → bs ≤ (natDecChars val.natAbs).length + (if val < 0 then 1 else 0) →
      i64_to_str val bs = "0") ∧
    (21 ≤ bs →
      i64_to_str val bs =
        (if val < 0 then String.mk ('-' :: natDecChars val.natAbs)
         else String.mk (natDecChars val.natAbs))) := by
  have habs : val.natAbs ≤ 2 ^ 63 := by
    rcases Int.natAbs_eq val with h | h <;> omega
  have hd19 := natDecChars_len_le_19 val.natAbs habs
  have hd1 := natDecChars_len_pos val.natAbs
  have hfits : ∀ b : Nat, 1 ≤ b →
      (natDecChars val.natAbs).length + (if val < 0 then 1 else 0) < b →
      i64_to_str val b =
        (if val < 0 then String.mk ('-' :: natDecChars val.natAbs)
         else String.mk (natDecChars val.natAbs)) := by
    intro b hb hfit
    have hw : write_digits val.natAbs (b - 1) = some (natDecChars val.natAbs) := by
      rw [write_digits_eq]
      rw [if_pos (by split at hfit <;> omega)]
    rw [i64_to_str_of_write_some val b _ (by omega) hw]
    by_cases hneg : val < 0
    · rw [if_pos hneg] at hfit ⊢
      rw [if_pos hneg, if_pos (by omega)]
    · rw [if_neg hneg, if_neg hneg]
  refine ⟨rfl, hfits bs, ?_, ?_⟩
  · intro hb hnofit
    by_cases hneg : val < 0
    · rw [if_pos hneg] at hnofit
      by_cases hfit : (natDecChars val.natAbs).length ≤ bs - 1
      · have hw : write_digits val.natAbs (bs - 1) = some (natDecChars val.natAbs) := by
          rw [write_digits_eq, if_pos hfit]
        rw [i64_to_str_of_write_some val bs _ (by omega) hw]
        rw [if_pos hneg, if_neg (by omega)]
      · have hw : write_digits val.natAbs (bs - 1) = none := by
          rw [write_digits_eq, if_neg hfit]
        exact i64_to_str_of_write_none val bs (by omega) hw
    · rw [if_neg hneg] at hnofit
      have hw : write_digits val.natAbs (bs - 1) = none := by
        rw [write_digits_eq, if_neg (by omega)]
      exact i64_to_str_of_write_none val bs (by omega) hw
  · intro hbig
    refine hfits bs (by omega) ?_
    split <;> omega

theorem i64_to_str_full_spec_witness :
    (i64_to_str (-9223372036854775808) 0 = "") ∧
    (1 ≤ 21 →
      (natDecChars (Int.natAbs (-9223372036854775808))).length +
          (if (-9223372036854775808 : Int) < 0 then 1 else 0) < 21 →
      i64_to_str (-9223372036854775808) 21 =
        (if (-9223372036854775808 : Int) < 0 then
          String.mk ('-' :: natDecChars (Int.natAbs (-9223372036854775808)))
         else String.mk (natDecChars (Int.natAbs (-9223372036854775808))))) ∧
    (1 ≤ 21 →
      21 ≤ (natDecChars (Int.natAbs (-9223372036854775808))).length +
          (if (-9223372036854775808 : Int) < 0 then 1 else 0) →
      i64_to_str (-9223372036854775808) 21 = "0") ∧
    (21 ≤ 21 →
      i64_to_str (-9223372036854775808) 21 =
        (if (-9223372036854775808 : Int) < 0 then
          String.mk ('-' :: natDecChars (Int.natAbs (-9223372036854775808)))
         else String.mk (natDecChars (Int.natAbs (-9223372036854775808))))) :=
  i64_to_str_full_spec (-9223372036854775808) 21 (by norm_num) (by norm_num)
